import Mathlib

/-!
Verification development for the genai_docs_helper repository.

The repository is a retrieval-augmented-generation document assistant.  Its
core consists of a dual-layer query cache (Redis remote backend plus a
bounded in-process memory backend), a batch document grader with early
stopping, a retry/rephrase loop around retrieval, and a generation stage
that limits its context to the first ten filtered documents.

The Python modules implementing this core (cache/query_cache.py,
nodes/grade_documents.py, nodes/paraphrase.py, nodes/generate.py,
chains/batch_grader.py) are documented by the module READMEs but their
source is not part of this corpus, so every definition below is modelled
from the written specification and the module documentation, as indicated
by its doc comment.  All theorems are proved against these models.
-/

/- ===================== Cache Store ===================== -/

/-- Modelled from the spec: the cache key input of query_cache.py (whose
source is missing) is documented as the string question, a vertical-bar
delimiter, context, and the version suffix, which is then hashed. -/
def flattenKeyInput (question context : String) : String :=
  question ++ "|" ++ context ++ "|v1.0"

/-- Modelled from the spec: a cache entry of query_cache.py holds the stored
payload and an absolute expiry timestamp; the entry is logically absent once
the timestamp is passed. -/
structure CacheEntry (V : Type) where
  value : V
  expires_at : Nat
deriving Repr

/-- Modelled from the spec: process-wide state of the dual-layer QueryCache
of query_cache.py, whose source is missing.  The md5 hex digest used for key
derivation is an external library function, kept abstract as the digest
field; redis_reachable models whether the remote backend is currently
reachable.  Counters hits, misses and errors are process-wide. -/
structure QueryCache (V : Type) where
  digest : String → String
  redis_enabled : Bool
  redis_reachable : Bool
  redis_store : List (String × CacheEntry V)
  memory_cache : List (String × CacheEntry V)
  max_memory_entries : Nat
  ttl : Nat
  hits : Nat
  misses : Nat
  errors : Nat

/-- Derived cache key: digest of the flattened question, context and
cache-version string. -/
def QueryCache.cacheKey (c : QueryCache V) (question context : String) : String :=
  c.digest (flattenKeyInput question context)

/-- Look a key up in one backend store, returning the payload only when the
entry is live at time now. -/
def lookupLive (store : List (String × CacheEntry V)) (key : String) (now : Nat) :
    Option V :=
  match store.find? (fun p => p.1 == key) with
  | some p => if now < p.2.expires_at then some p.2.value else none
  | none => none

/-- Write a binding into a backend store, replacing any previous binding of
the same key; the newest entry sits at the head. -/
def setStore (store : List (String × CacheEntry V)) (key : String) (e : CacheEntry V) :
    List (String × CacheEntry V) :=
  (key, e) :: store.filter (fun p => p.1 != key)

/-- Modelled from the spec: the bounded in-process backend evicts the
oldest entry first when the configured maximum is exceeded; with the newest
entry at the head, truncation to the maximum drops the oldest tail. -/
def setMemory (maxEntries : Nat) (store : List (String × CacheEntry V))
    (key : String) (e : CacheEntry V) : List (String × CacheEntry V) :=
  (setStore store key e).take maxEntries

/-- Shared local-backend read path of get: consult the memory backend and
update the hit or miss counter; errs remote failures are counted on the
error counter at the same time. -/
def QueryCache.localGet (c : QueryCache V) (key : String) (now : Nat) (errs : Nat) :
    Option V × QueryCache V :=
  match lookupLive c.memory_cache key now with
  | some v => (some v, { c with hits := c.hits + 1, errors := c.errors + errs })
  | none => (none, { c with misses := c.misses + 1, errors := c.errors + errs })

/-- Modelled from the spec: get of query_cache.py, whose source is missing.
The derived key is checked against the remote backend first when that
backend is enabled and reachable; a remote failure is counted, never
raised, and the lookup falls through to the local backend.  A live entry in
either backend is a hit, otherwise the miss counter is incremented. -/
def QueryCache.get (c : QueryCache V) (question context : String) (now : Nat) :
    Option V × QueryCache V :=
  let key := c.cacheKey question context
  if c.redis_enabled then
    if c.redis_reachable then
      match lookupLive c.redis_store key now with
      | some v => (some v, { c with hits := c.hits + 1 })
      | none => c.localGet key now 0
    else
      c.localGet key now 1
  else
    c.localGet key now 0

/-- Modelled from the spec: set of query_cache.py, whose source is missing.
The entry expires ttl seconds after now.  The write goes to the remote
backend best-effort (an unreachable remote is counted as an error, never
raised) and unconditionally to the bounded local backend, evicting the
oldest local entry when the bound is exceeded. -/
def QueryCache.set (c : QueryCache V) (question context : String) (v : V) (now : Nat) :
    QueryCache V :=
  let key := c.cacheKey question context
  let e : CacheEntry V := ⟨v, now + c.ttl⟩
  let c' :=
    if c.redis_enabled then
      if c.redis_reachable then { c with redis_store := setStore c.redis_store key e }
      else { c with errors := c.errors + 1 }
    else c
  { c' with memory_cache := setMemory c'.max_memory_entries c'.memory_cache key e }

/-- Read-only statistics snapshot returned by get_stats. -/
structure CacheStats where
  hits : Nat
  misses : Nat
  errors : Nat
  hit_rate : ℚ
  local_size : Nat
  remote_available : Bool

/-- Modelled from the spec: get_stats of query_cache.py, whose source is
missing.  The hit rate is hits over hits plus misses, defined as zero when
there has been no request yet; remote_available reports whether the remote
backend is enabled and currently reachable. -/
def QueryCache.get_stats (c : QueryCache V) : CacheStats :=
  { hits := c.hits
    misses := c.misses
    errors := c.errors
    hit_rate :=
      if c.hits + c.misses = 0 then 0
      else (c.hits : ℚ) / ((c.hits : ℚ) + (c.misses : ℚ))
    local_size := c.memory_cache.length
    remote_available := c.redis_enabled && c.redis_reachable }

/-- One observable cache operation, time-stamped explicitly. -/
inductive CacheOp (V : Type) where
  | opGet (question context : String) (now : Nat)
  | opSet (question context : String) (v : V) (now : Nat)

/-- Apply one operation to the cache state. -/
def applyOp (c : QueryCache V) : CacheOp V → QueryCache V
  | .opGet q ctx now => (c.get q ctx now).2
  | .opSet q ctx v now => c.set q ctx v now

/-- Run a sequence of cache operations from a given state. -/
def runOps (c : QueryCache V) (ops : List (CacheOp V)) : QueryCache V :=
  ops.foldl applyOp c

/-- Number of operations of a run that are observed as hits: get operations
whose returned value is present.  This count is defined from the observable
results only, independently of the internal counters. -/
def hitsInRun (c : QueryCache V) : List (CacheOp V) → Nat
  | [] => 0
  | op :: rest =>
    (match op with
     | .opGet q ctx now => if ((c.get q ctx now).1).isSome then 1 else 0
     | .opSet _ _ _ _ => 0) + hitsInRun (applyOp c op) rest

/-- Number of operations of a run that are observed as misses: get
operations whose returned value is absent. -/
def missesInRun (c : QueryCache V) : List (CacheOp V) → Nat
  | [] => 0
  | op :: rest =>
    (match op with
     | .opGet q ctx now => if ((c.get q ctx now).1).isSome then 0 else 1
     | .opSet _ _ _ _ => 0) + missesInRun (applyOp c op) rest

/- ===================== Batch Grader and grade_documents ===================== -/

/-- A retrieved document after confidence scoring: text body, origin
identifier and a confidence in the unit interval, modelled as a rational. -/
structure ScoredDoc where
  content : String
  source : String
  confidence : ℚ
deriving DecidableEq

/-- Grading configuration of the grade_documents node, as documented in the
nodes README configuration section. -/
structure GradingConfig where
  batch_size : Nat
  min_relevant_docs : Nat
  confidence_threshold : ℚ
  early_stopping_enabled : Bool

/-- Default grading configuration from the nodes README: batch size 5,
minimum 5 relevant documents, confidence threshold 0.7, early stopping on. -/
def GRADING_CONFIG : GradingConfig :=
  { batch_size := 5
    min_relevant_docs := 5
    confidence_threshold := 7/10
    early_stopping_enabled := true }

/-- Per-document result of one batch grading call: 0-based index within the
batch, relevance flag and confidence. -/
structure GradeScore where
  document_index : Nat
  is_relevant : Bool
  confidence : ℚ

/-- A document together with its grading outcome. -/
structure GradedDoc where
  doc : ScoredDoc
  is_relevant : Bool
  confidence : ℚ
deriving DecidableEq

/-- Modelled from the spec: the lenient default confidence assigned when a
grading call fails, documented as the neutral constant 0.5. -/
def DEFAULT_CONFIDENCE : ℚ := 1/2

/-- Modelled from the spec: one batch call of batch_grader.py, whose source
is missing.  The underlying LLM grading call is abstract: it returns one
score per document on success and nothing on failure.  On failure, or on a
malformed response, every document of the batch is kept with is_relevant
true and the default confidence rather than dropped. -/
def gradeBatch (grader : String → List ScoredDoc → Option (List GradeScore))
    (question : String) (batch : List ScoredDoc) : List GradedDoc :=
  match grader question batch with
  | some scores =>
    if scores.length = batch.length then
      (batch.zip scores).map (fun p => ⟨p.1, p.2.is_relevant, p.2.confidence⟩)
    else
      batch.map (fun d => ⟨d, true, DEFAULT_CONFIDENCE⟩)
  | none => batch.map (fun d => ⟨d, true, DEFAULT_CONFIDENCE⟩)

/-- Split a list into consecutive chunks of at most n elements, as the
grader groups documents into batches of the configured batch size. -/
def chunkList (n : Nat) (l : List α) : List (List α) :=
  match n, l with
  | _, [] => []
  | 0, l => [l]
  | n+1, x :: xs => (x :: xs).take (n+1) :: chunkList (n+1) ((x :: xs).drop (n+1))
termination_by l.length
decreasing_by simp; omega

/-- Mean of a list of rationals, zero for the empty list. -/
def meanConfidence (l : List ℚ) : ℚ :=
  if l.length = 0 then 0 else l.sum / (l.length : ℚ)

/-- Documents whose scored confidence meets the configured threshold. -/
def highConfidenceDocs (cfg : GradingConfig) (docs : List ScoredDoc) : List ScoredDoc :=
  docs.filter (fun d => decide (cfg.confidence_threshold ≤ d.confidence))

/-- Modelled from the spec: the early-stopping check of grade_documents.py,
whose source is missing.  It holds when early stopping is enabled and the
count of documents at or above the confidence threshold meets the
configured minimum. -/
def earlyStopTriggered (cfg : GradingConfig) (docs : List ScoredDoc) : Bool :=
  cfg.early_stopping_enabled &&
    decide (cfg.min_relevant_docs ≤ (highConfidenceDocs cfg docs).length)

/-- Result of the grade_documents node: surviving documents, the aggregate
confidence score reported to the caller, and the number of batch grading
calls issued, which the model tracks explicitly. -/
structure GradeResult where
  documents : List GradedDoc
  confidence_score : ℚ
  graderCalls : Nat

/-- Modelled from the spec: the grade_documents node of grade_documents.py,
whose source is missing.  The early-stop check runs before any grading
call: when it triggers, the high-confidence subset is kept directly and the
batch grader is invoked zero times.  Otherwise the documents are grouped
into batches of the configured size, each batch is graded (with the lenient
per-batch fallback), and only documents flagged relevant are kept.  The
reported aggregate confidence is the mean of the surviving confidences,
zero when no document survives. -/
def gradeDocuments (cfg : GradingConfig)
    (grader : String → List ScoredDoc → Option (List GradeScore))
    (question : String) (docs : List ScoredDoc) : GradeResult :=
  if earlyStopTriggered cfg docs then
    let kept := (highConfidenceDocs cfg docs).map (fun d => ⟨d, true, d.confidence⟩)
    { documents := kept
      confidence_score := meanConfidence (kept.map (fun g => g.confidence))
      graderCalls := 0 }
  else
    let batches := chunkList cfg.batch_size docs
    let graded := (batches.map (gradeBatch grader question)).flatten
    let kept := graded.filter (fun g => g.is_relevant)
    { documents := kept
      confidence_score := meanConfidence (kept.map (fun g => g.confidence))
      graderCalls := batches.length }

/- ===================== Retry / Rephrase loop ===================== -/

/-- Phase of one logical user request in the orchestrator state machine. -/
inductive Phase where
  | running : Phase
  | done : Phase
  | fallback : Phase
deriving DecidableEq

/-- Modelled from the spec: the request-scoped graph state threaded through
the workflow nodes, with the current question, the preserved original
question, the retry counter, the surviving documents and the phase. -/
structure GraphState where
  question : String
  original_question : String
  retry_count : Nat
  documents : List ScoredDoc
  phase : Phase
deriving DecidableEq

/-- Modelled from the spec: one retrieval attempt of the orchestrator loop,
combining the retrieve, grade and paraphrase nodes; the sources of
retrieve.py and paraphrase.py are missing.  retrieveFn yields the surviving
relevant documents for a question.  An empty survivor set triggers a
rephrase cycle while the retry counter is below maxRetries, incrementing
the counter and never touching the original question; once retries are
exhausted the request terminates in the fallback phase. -/
def stepRequest (maxRetries : Nat) (retrieveFn : String → List ScoredDoc)
    (paraphraseFn : String → String) (s : GraphState) : GraphState :=
  match s.phase with
  | Phase.done => s
  | Phase.fallback => s
  | Phase.running =>
    match retrieveFn s.question with
    | d :: ds => { s with documents := d :: ds, phase := Phase.done }
    | [] =>
      if s.retry_count < maxRetries then
        { question := paraphraseFn s.question
          original_question := s.original_question
          retry_count := s.retry_count + 1
          documents := []
          phase := Phase.running }
      else
        { s with phase := Phase.fallback }

/-- Initial graph state for a fresh user question. -/
def initState (question : String) : GraphState :=
  { question := question
    original_question := question
    retry_count := 0
    documents := []
    phase := Phase.running }

/- ===================== Generation stage ===================== -/

/-- Modelled from the spec: the generate node of generate.py, whose source
is missing, limits its context to the top documents of the filtered set;
the nodes README documents the limit as 10. -/
def GENERATION_MAX_DOCS : Nat := 10

/-- Context actually passed to the LLM by the generate node: the first
GENERATION_MAX_DOCS documents of the filtered document set. -/
def generationContext (docs : List ScoredDoc) : List ScoredDoc :=
  docs.take GENERATION_MAX_DOCS

/-- Modelled from the spec: the generate node invokes the LLM, kept
abstract as llm, on the question and the limited context. -/
def generateAnswer (llm : String → List ScoredDoc → String)
    (question : String) (docs : List ScoredDoc) : String :=
  llm question (generationContext docs)

/- ===================== Cache lemmas ===================== -/

theorem set_digest (c : QueryCache V) (q ctx : String) (v : V) (now : Nat) :
    (c.set q ctx v now).digest = c.digest := by
  unfold QueryCache.set
  cases he : c.redis_enabled <;> cases hr : c.redis_reachable <;> simp [he, hr]

theorem set_redis_enabled (c : QueryCache V) (q ctx : String) (v : V) (now : Nat) :
    (c.set q ctx v now).redis_enabled = c.redis_enabled := by
  unfold QueryCache.set
  cases he : c.redis_enabled <;> cases hr : c.redis_reachable <;> simp [he, hr]

theorem set_redis_reachable (c : QueryCache V) (q ctx : String) (v : V) (now : Nat) :
    (c.set q ctx v now).redis_reachable = c.redis_reachable := by
  unfold QueryCache.set
  cases he : c.redis_enabled <;> cases hr : c.redis_reachable <;> simp [he, hr]

theorem set_max_memory_entries (c : QueryCache V) (q ctx : String) (v : V) (now : Nat) :
    (c.set q ctx v now).max_memory_entries = c.max_memory_entries := by
  unfold QueryCache.set
  cases he : c.redis_enabled <;> cases hr : c.redis_reachable <;> simp [he, hr]

theorem set_ttl (c : QueryCache V) (q ctx : String) (v : V) (now : Nat) :
    (c.set q ctx v now).ttl = c.ttl := by
  unfold QueryCache.set
  cases he : c.redis_enabled <;> cases hr : c.redis_reachable <;> simp [he, hr]

theorem set_hits (c : QueryCache V) (q ctx : String) (v : V) (now : Nat) :
    (c.set q ctx v now).hits = c.hits := by
  unfold QueryCache.set
  cases he : c.redis_enabled <;> cases hr : c.redis_reachable <;> simp [he, hr]

theorem set_misses (c : QueryCache V) (q ctx : String) (v : V) (now : Nat) :
    (c.set q ctx v now).misses = c.misses := by
  unfold QueryCache.set
  cases he : c.redis_enabled <;> cases hr : c.redis_reachable <;> simp [he, hr]

theorem set_memory_cache (c : QueryCache V) (q ctx : String) (v : V) (now : Nat) :
    (c.set q ctx v now).memory_cache =
      setMemory c.max_memory_entries c.memory_cache (c.cacheKey q ctx) ⟨v, now + c.ttl⟩ := by
  unfold QueryCache.set
  cases he : c.redis_enabled <;> cases hr : c.redis_reachable <;> simp [he, hr]

theorem set_errors (c : QueryCache V) (q ctx : String) (v : V) (now : Nat) :
    (c.set q ctx v now).errors =
      c.errors + (if c.redis_enabled && !c.redis_reachable then 1 else 0) := by
  unfold QueryCache.set
  cases he : c.redis_enabled <;> cases hr : c.redis_reachable <;> simp [he, hr]

theorem set_redis_store (c : QueryCache V) (q ctx : String) (v : V) (now : Nat) :
    (c.set q ctx v now).redis_store =
      if c.redis_enabled && c.redis_reachable then
        setStore c.redis_store (c.cacheKey q ctx) ⟨v, now + c.ttl⟩
      else c.redis_store := by
  unfold QueryCache.set
  cases he : c.redis_enabled <;> cases hr : c.redis_reachable <;> simp [he, hr]

theorem get_digest (c : QueryCache V) (q ctx : String) (now : Nat) :
    (c.get q ctx now).2.digest = c.digest := by
  unfold QueryCache.get QueryCache.localGet
  cases he : c.redis_enabled <;> cases hr : c.redis_reachable <;>
    cases hR : lookupLive c.redis_store (c.cacheKey q ctx) now <;>
    cases hM : lookupLive c.memory_cache (c.cacheKey q ctx) now <;>
    simp [he, hr, hR, hM]

theorem get_redis_enabled (c : QueryCache V) (q ctx : String) (now : Nat) :
    (c.get q ctx now).2.redis_enabled = c.redis_enabled := by
  unfold QueryCache.get QueryCache.localGet
  cases he : c.redis_enabled <;> cases hr : c.redis_reachable <;>
    cases hR : lookupLive c.redis_store (c.cacheKey q ctx) now <;>
    cases hM : lookupLive c.memory_cache (c.cacheKey q ctx) now <;>
    simp [he, hr, hR, hM]

theorem get_redis_reachable (c : QueryCache V) (q ctx : String) (now : Nat) :
    (c.get q ctx now).2.redis_reachable = c.redis_reachable := by
  unfold QueryCache.get QueryCache.localGet
  cases he : c.redis_enabled <;> cases hr : c.redis_reachable <;>
    cases hR : lookupLive c.redis_store (c.cacheKey q ctx) now <;>
    cases hM : lookupLive c.memory_cache (c.cacheKey q ctx) now <;>
    simp [he, hr, hR, hM]

theorem get_max_memory_entries (c : QueryCache V) (q ctx : String) (now : Nat) :
    (c.get q ctx now).2.max_memory_entries = c.max_memory_entries := by
  unfold QueryCache.get QueryCache.localGet
  cases he : c.redis_enabled <;> cases hr : c.redis_reachable <;>
    cases hR : lookupLive c.redis_store (c.cacheKey q ctx) now <;>
    cases hM : lookupLive c.memory_cache (c.cacheKey q ctx) now <;>
    simp [he, hr, hR, hM]

theorem get_ttl (c : QueryCache V) (q ctx : String) (now : Nat) :
    (c.get q ctx now).2.ttl = c.ttl := by
  unfold QueryCache.get QueryCache.localGet
  cases he : c.redis_enabled <;> cases hr : c.redis_reachable <;>
    cases hR : lookupLive c.redis_store (c.cacheKey q ctx) now <;>
    cases hM : lookupLive c.memory_cache (c.cacheKey q ctx) now <;>
    simp [he, hr, hR, hM]

theorem get_memory_cache (c : QueryCache V) (q ctx : String) (now : Nat) :
    (c.get q ctx now).2.memory_cache = c.memory_cache := by
  unfold QueryCache.get QueryCache.localGet
  cases he : c.redis_enabled <;> cases hr : c.redis_reachable <;>
    cases hR : lookupLive c.redis_store (c.cacheKey q ctx) now <;>
    cases hM : lookupLive c.memory_cache (c.cacheKey q ctx) now <;>
    simp [he, hr, hR, hM]

theorem get_redis_store (c : QueryCache V) (q ctx : String) (now : Nat) :
    (c.get q ctx now).2.redis_store = c.redis_store := by
  unfold QueryCache.get QueryCache.localGet
  cases he : c.redis_enabled <;> cases hr : c.redis_reachable <;>
    cases hR : lookupLive c.redis_store (c.cacheKey q ctx) now <;>
    cases hM : lookupLive c.memory_cache (c.cacheKey q ctx) now <;>
    simp [he, hr, hR, hM]

theorem get_errors (c : QueryCache V) (q ctx : String) (now : Nat) :
    (c.get q ctx now).2.errors =
      c.errors + (if c.redis_enabled && !c.redis_reachable then 1 else 0) := by
  unfold QueryCache.get QueryCache.localGet
  cases he : c.redis_enabled <;> cases hr : c.redis_reachable <;>
    cases hR : lookupLive c.redis_store (c.cacheKey q ctx) now <;>
    cases hM : lookupLive c.memory_cache (c.cacheKey q ctx) now <;>
    simp [he, hr, hR, hM]

theorem get_hits_snd (c : QueryCache V) (q ctx : String) (now : Nat) :
    (c.get q ctx now).2.hits =
      c.hits + (if ((c.get q ctx now).1).isSome then 1 else 0) := by
  unfold QueryCache.get QueryCache.localGet
  cases he : c.redis_enabled <;> cases hr : c.redis_reachable <;>
    cases hR : lookupLive c.redis_store (c.cacheKey q ctx) now <;>
    cases hM : lookupLive c.memory_cache (c.cacheKey q ctx) now <;>
    simp [he, hr, hR, hM]

theorem get_misses_snd (c : QueryCache V) (q ctx : String) (now : Nat) :
    (c.get q ctx now).2.misses =
      c.misses + (if ((c.get q ctx now).1).isSome then 0 else 1) := by
  unfold QueryCache.get QueryCache.localGet
  cases he : c.redis_enabled <;> cases hr : c.redis_reachable <;>
    cases hR : lookupLive c.redis_store (c.cacheKey q ctx) now <;>
    cases hM : lookupLive c.memory_cache (c.cacheKey q ctx) now <;>
    simp [he, hr, hR, hM]

theorem lookupLive_setStore_self (store : List (String × CacheEntry V))
    (key : String) (e : CacheEntry V) (now : Nat) :
    lookupLive (setStore store key e) key now =
      if now < e.expires_at then some e.value else none := by
  simp [lookupLive, setStore, List.find?]

theorem lookupLive_setMemory_self (maxEntries : Nat)
    (store : List (String × CacheEntry V)) (key : String) (e : CacheEntry V)
    (now : Nat) (hmax : 1 ≤ maxEntries) :
    lookupLive (setMemory maxEntries store key e) key now =
      if now < e.expires_at then some e.value else none := by
  cases maxEntries with
  | zero => omega
  | succ m => simp [lookupLive, setMemory, setStore, List.take_succ_cons, List.find?]

theorem set_cacheKey (c : QueryCache V) (q1 c1 q2 c2 : String) (v : V) (now : Nat) :
    (c.set q1 c1 v now).cacheKey q2 c2 = c.cacheKey q2 c2 := by
  unfold QueryCache.cacheKey
  rw [set_digest]

theorem set_then_get_fst (c : QueryCache V) (q1 c1 q2 c2 : String) (v : V)
    (now now' : Nat) (hkey : c.cacheKey q1 c1 = c.cacheKey q2 c2)
    (hmax : 1 ≤ c.max_memory_entries) :
    ((c.set q1 c1 v now).get q2 c2 now').1 =
      if now' < now + c.ttl then some v else none := by
  have hck : (c.set q1 c1 v now).cacheKey q2 c2 = c.cacheKey q1 c1 := by
    rw [set_cacheKey, hkey]
  simp only [QueryCache.get, QueryCache.localGet, hck, set_redis_enabled,
    set_redis_reachable, set_memory_cache, set_redis_store,
    set_max_memory_entries, set_ttl]
  cases he : c.redis_enabled <;> cases hr : c.redis_reachable <;>
    by_cases hlive : now' < now + c.ttl <;>
    simp [he, hr, hlive, lookupLive_setStore_self,
      lookupLive_setMemory_self _ _ _ _ _ hmax]

theorem applyOp_redis_enabled (c : QueryCache V) (op : CacheOp V) :
    (applyOp c op).redis_enabled = c.redis_enabled := by
  cases op with
  | opGet q ctx now => simp [applyOp, get_redis_enabled]
  | opSet q ctx v now => simp [applyOp, set_redis_enabled]

theorem applyOp_redis_reachable (c : QueryCache V) (op : CacheOp V) :
    (applyOp c op).redis_reachable = c.redis_reachable := by
  cases op with
  | opGet q ctx now => simp [applyOp, get_redis_reachable]
  | opSet q ctx v now => simp [applyOp, set_redis_reachable]

theorem applyOp_max_memory_entries (c : QueryCache V) (op : CacheOp V) :
    (applyOp c op).max_memory_entries = c.max_memory_entries := by
  cases op with
  | opGet q ctx now => simp [applyOp, get_max_memory_entries]
  | opSet q ctx v now => simp [applyOp, set_max_memory_entries]

theorem applyOp_hits (c : QueryCache V) (op : CacheOp V) :
    (applyOp c op).hits = c.hits +
      (match op with
       | .opGet q ctx now => if ((c.get q ctx now).1).isSome then 1 else 0
       | .opSet _ _ _ _ => 0) := by
  cases op with
  | opGet q ctx now => simp [applyOp, get_hits_snd]
  | opSet q ctx v now => simp [applyOp, set_hits]

theorem applyOp_misses (c : QueryCache V) (op : CacheOp V) :
    (applyOp c op).misses = c.misses +
      (match op with
       | .opGet q ctx now => if ((c.get q ctx now).1).isSome then 0 else 1
       | .opSet _ _ _ _ => 0) := by
  cases op with
  | opGet q ctx now => simp [applyOp, get_misses_snd]
  | opSet q ctx v now => simp [applyOp, set_misses]

theorem runOps_redis_enabled (c : QueryCache V) (ops : List (CacheOp V)) :
    (runOps c ops).redis_enabled = c.redis_enabled := by
  induction ops generalizing c with
  | nil => rfl
  | cons op rest ih =>
    simp only [runOps, List.foldl_cons] at *
    rw [ih, applyOp_redis_enabled]

theorem runOps_redis_reachable (c : QueryCache V) (ops : List (CacheOp V)) :
    (runOps c ops).redis_reachable = c.redis_reachable := by
  induction ops generalizing c with
  | nil => rfl
  | cons op rest ih =>
    simp only [runOps, List.foldl_cons] at *
    rw [ih, applyOp_redis_reachable]

theorem runOps_hits (c : QueryCache V) (ops : List (CacheOp V)) :
    (runOps c ops).hits = c.hits + hitsInRun c ops := by
  induction ops generalizing c with
  | nil => simp [runOps, hitsInRun]
  | cons op rest ih =>
    simp only [runOps, List.foldl_cons, hitsInRun]
    rw [show (rest.foldl applyOp (applyOp c op)) = runOps (applyOp c op) rest from rfl,
      ih, applyOp_hits]
    omega

theorem runOps_misses (c : QueryCache V) (ops : List (CacheOp V)) :
    (runOps c ops).misses = c.misses + missesInRun c ops := by
  induction ops generalizing c with
  | nil => simp [runOps, missesInRun]
  | cons op rest ih =>
    simp only [runOps, List.foldl_cons, missesInRun]
    rw [show (rest.foldl applyOp (applyOp c op)) = runOps (applyOp c op) rest from rfl,
      ih, applyOp_misses]
    omega

/-- Insert a sequence of key-entry pairs into an initially empty local
backend of the given capacity, in order. -/
def insertAll (maxEntries : Nat) (kvs : List (String × CacheEntry V)) :
    List (String × CacheEntry V) :=
  kvs.foldl (fun m kv => setMemory maxEntries m kv.1 kv.2) []

theorem setMemory_length_le (maxEntries : Nat) (store : List (String × CacheEntry V))
    (key : String) (e : CacheEntry V) :
    (setMemory maxEntries store key e).length ≤ maxEntries := by
  simp [setMemory]

theorem applyOp_memory_bound (c : QueryCache V) (op : CacheOp V)
    (h : c.memory_cache.length ≤ c.max_memory_entries) :
    (applyOp c op).memory_cache.length ≤ (applyOp c op).max_memory_entries := by
  cases op with
  | opGet q ctx now => simpa [applyOp, get_memory_cache, get_max_memory_entries] using h
  | opSet q ctx v now =>
    simp [applyOp, set_memory_cache, set_max_memory_entries, setMemory_length_le]

theorem runOps_memory_bound (c : QueryCache V) (ops : List (CacheOp V))
    (h : c.memory_cache.length ≤ c.max_memory_entries) :
    (runOps c ops).memory_cache.length ≤ (runOps c ops).max_memory_entries := by
  induction ops generalizing c with
  | nil => exact h
  | cons op rest ih =>
    simp only [runOps, List.foldl_cons]
    exact ih (applyOp c op) (applyOp_memory_bound c op h)

theorem setMemory_fresh (maxEntries : Nat) (m : List (String × CacheEntry V))
    (kv : String × CacheEntry V) (hfresh : kv.1 ∉ m.map Prod.fst)
    (hlen : m.length + 1 ≤ maxEntries) :
    setMemory maxEntries m kv.1 kv.2 = kv :: m := by
  have hfil : m.filter (fun p => p.1 != kv.1) = m := by
    refine List.filter_eq_self.mpr ?_
    intro p hp
    simp only [bne_iff_ne, ne_eq, decide_eq_true_eq]
    intro hpk
    exact hfresh (hpk ▸ List.mem_map_of_mem Prod.fst hp)
  rw [setMemory, setStore, hfil]
  exact List.take_of_length_le (by simpa using hlen)

theorem insertAll_go (maxEntries : Nat) (kvs m₀ : List (String × CacheEntry V))
    (hnd : (kvs.map Prod.fst).Nodup)
    (hdisj : ∀ k ∈ kvs.map Prod.fst, k ∉ m₀.map Prod.fst)
    (hlen : m₀.length + kvs.length ≤ maxEntries) :
    kvs.foldl (fun m kv => setMemory maxEntries m kv.1 kv.2) m₀ =
      kvs.reverse ++ m₀ := by
  induction kvs generalizing m₀ with
  | nil => simp
  | cons kv rest ih =>
    simp only [List.foldl_cons]
    have hfresh : kv.1 ∉ m₀.map Prod.fst := by
      exact hdisj kv.1 (by simp)
    rw [setMemory_fresh maxEntries m₀ kv hfresh (by simp at hlen; omega)]
    have hnd' : (rest.map Prod.fst).Nodup := by
      simp only [List.map_cons, List.nodup_cons] at hnd
      exact hnd.2
    have hhead : kv.1 ∉ rest.map Prod.fst := by
      simp only [List.map_cons, List.nodup_cons] at hnd
      exact hnd.1
    have hdisj' : ∀ k ∈ rest.map Prod.fst, k ∉ (kv :: m₀).map Prod.fst := by
      intro k hk
      simp only [List.map_cons, List.mem_cons, not_or]
      constructor
      · intro hkk
        exact hhead (hkk ▸ hk)
      · exact hdisj k (by simp [hk])
    rw [ih (kv :: m₀) hnd' hdisj' (by simp at hlen ⊢; omega)]
    simp

theorem insertAll_evicts_oldest (maxEntries : Nat)
    (kvs : List (String × CacheEntry V))
    (hnd : (kvs.map Prod.fst).Nodup) (hlen : kvs.length = maxEntries + 1) :
    (insertAll maxEntries kvs).map Prod.fst =
      ((kvs.map Prod.fst).drop 1).reverse ∧
    (insertAll maxEntries kvs).length = maxEntries := by
  rcases List.eq_nil_or_concat kvs with hnil | ⟨init, last, hsplit⟩
  · simp [hnil] at hlen
  · subst hsplit
    simp only [List.concat_eq_append] at hnd hlen ⊢
    have hinitlen : init.length = maxEntries := by simp at hlen; omega
    have hndinit : (init.map Prod.fst).Nodup := by
      simp only [List.map_append, List.nodup_append] at hnd
      exact hnd.1
    have hlastfresh : last.1 ∉ init.map Prod.fst := by
      simp only [List.map_append, List.nodup_append] at hnd
      intro hmem
      exact hnd.2.2 hmem (by simp)
    have hinner :
        init.foldl (fun m kv => setMemory maxEntries m kv.1 kv.2) [] =
          init.reverse := by
      have := insertAll_go maxEntries init []
        hndinit (by simp) (by simp [hinitlen])
      simpa using this
    have hfold :
        insertAll maxEntries (init ++ [last]) =
          setMemory maxEntries init.reverse last.1 last.2 := by
      simp only [insertAll, List.foldl_append, List.foldl_cons, List.foldl_nil]
      rw [hinner]
    have hfil : init.reverse.filter (fun p => p.1 != last.1) = init.reverse := by
      refine List.filter_eq_self.mpr ?_
      intro p hp
      simp only [bne_iff_ne, ne_eq, decide_eq_true_eq]
      intro hpk
      rw [List.mem_reverse] at hp
      exact hlastfresh (hpk ▸ List.mem_map_of_mem Prod.fst hp)
    rw [hfold, setMemory, setStore, hfil]
    cases maxEntries with
    | zero =>
      have : init = [] := List.length_eq_zero.mp hinitlen
      subst this
      simp
    | succ m =>
      rcases init with _ | ⟨i0, irest⟩
      · simp at hinitlen
      · have hirest : irest.length = m := by simp at hinitlen; omega
        have htake :
            ((last.1, last.2) :: (i0 :: irest).reverse).take (m + 1) =
              (last.1, last.2) :: irest.reverse := by
          rw [List.take_succ_cons, List.reverse_cons,
            List.take_append_of_le_length (by simp [hirest]),
            List.take_of_length_le (by simp [hirest])]
        rw [htake]
        constructor
        · simp [List.reverse_append]
        · simp [hirest]

/- ===================== Grading lemmas ===================== -/

theorem chunkList_flatten (n : Nat) (l : List α) : (chunkList n l).flatten = l :=
  match n, l with
  | _, [] => by simp [chunkList]
  | 0, x :: xs => by simp [chunkList]
  | n+1, x :: xs => by
    have ih := chunkList_flatten (n+1) ((x :: xs).drop (n+1))
    unfold chunkList
    simp only [List.flatten_cons]
    rw [ih]
    exact List.take_append_drop _ _
termination_by l.length
decreasing_by simp; omega

theorem gradeBatch_fail (grader : String → List ScoredDoc → Option (List GradeScore))
    (question : String) (batch : List ScoredDoc)
    (hfail : grader question batch = none) :
    gradeBatch grader question batch =
      batch.map (fun d => ⟨d, true, DEFAULT_CONFIDENCE⟩) := by
  simp [gradeBatch, hfail]

/- ===================== Retry loop lemmas ===================== -/

theorem stepRequest_retry_mono (maxRetries : Nat)
    (retrieveFn : String → List ScoredDoc) (paraphraseFn : String → String)
    (s : GraphState) :
    s.retry_count ≤ (stepRequest maxRetries retrieveFn paraphraseFn s).retry_count := by
  unfold stepRequest
  cases hp : s.phase <;> simp
  cases hr : retrieveFn s.question <;> simp
  by_cases hlt : s.retry_count < maxRetries <;> simp [hlt]

theorem stepRequest_retry_bounded (maxRetries : Nat)
    (retrieveFn : String → List ScoredDoc) (paraphraseFn : String → String)
    (s : GraphState) (h : s.retry_count ≤ maxRetries) :
    (stepRequest maxRetries retrieveFn paraphraseFn s).retry_count ≤ maxRetries := by
  unfold stepRequest
  cases hp : s.phase <;> simp [h]
  cases hr : retrieveFn s.question <;> simp [h]
  by_cases hlt : s.retry_count < maxRetries <;> simp [hlt, h]
  omega

theorem stepRequest_original (maxRetries : Nat)
    (retrieveFn : String → List ScoredDoc) (paraphraseFn : String → String)
    (s : GraphState) :
    (stepRequest maxRetries retrieveFn paraphraseFn s).original_question =
      s.original_question := by
  unfold stepRequest
  cases hp : s.phase <;> simp
  cases hr : retrieveFn s.question <;> simp
  by_cases hlt : s.retry_count < maxRetries <;> simp [hlt]

theorem stepRequest_no_docs_iterate (maxRetries : Nat)
    (paraphraseFn : String → String) (q : String) (k : Nat)
    (hk : k ≤ maxRetries) :
    (stepRequest maxRetries (fun _ => []) paraphraseFn)^[k] (initState q) =
      { question := paraphraseFn^[k] q
        original_question := q
        retry_count := k
        documents := []
        phase := Phase.running } := by
  induction k with
  | zero => simp [initState]
  | succ m ih =>
    rw [Function.iterate_succ_apply', ih (by omega)]
    unfold stepRequest
    simp only []
    have hm : m < maxRetries := by omega
    simp [hm, Function.iterate_succ_apply']

theorem stepRequest_exhausted (maxRetries : Nat)
    (paraphraseFn : String → String) (q : String) :
    (stepRequest maxRetries (fun _ => []) paraphraseFn)^[maxRetries + 1]
        (initState q) =
      { question := paraphraseFn^[maxRetries] q
        original_question := q
        retry_count := maxRetries
        documents := []
        phase := Phase.fallback } := by
  rw [Function.iterate_succ_apply',
    stepRequest_no_docs_iterate maxRetries paraphraseFn q maxRetries le_rfl]
  unfold stepRequest
  simp

/- ===================== Claim theorems ===================== -/

/-- C1: whenever early stopping is enabled and the scored document set
contains at least min_relevant_docs documents with confidence at or above
the configured threshold, the grade_documents node issues zero batch
grading calls, proceeds directly with the high-confidence subset, and its
result does not depend on the grader at all, so the early-stop check is
evaluated before any grading call. -/
theorem early_stop_skips_batch_grader (cfg : GradingConfig)
    (grader grader₂ : String → List ScoredDoc → Option (List GradeScore))
    (question : String) (docs : List ScoredDoc)
    (hen : cfg.early_stopping_enabled = true)
    (hmin : cfg.min_relevant_docs ≤ (highConfidenceDocs cfg docs).length) :
    (gradeDocuments cfg grader question docs).graderCalls = 0 ∧
    (gradeDocuments cfg grader question docs).documents.map (fun g => g.doc) =
      highConfidenceDocs cfg docs ∧
    gradeDocuments cfg grader question docs =
      gradeDocuments cfg grader₂ question docs := by
  have htrig : earlyStopTriggered cfg docs = true := by
    simp [earlyStopTriggered, hen, hmin]
  refine ⟨?_, ?_, ?_⟩ <;>
    simp [gradeDocuments, htrig, List.map_map, Function.comp_def]

/-- C1 witness: with threshold 0.8 and minimum 2, a scored set holding two
documents at confidence 0.9 and 0.85 triggers early stop and the grader is
invoked zero times. -/
theorem early_stop_skips_batch_grader_check :
    (gradeDocuments ⟨5, 2, 4/5, true⟩ (fun _ _ => none)
      "What is demand forecasting?"
      [⟨"doc-a", "src-a", 9/10⟩, ⟨"doc-b", "src-b", 17/20⟩]).graderCalls = 0 := by
  have h := early_stop_skips_batch_grader ⟨5, 2, 4/5, true⟩ (fun _ _ => none)
    (fun _ _ => none) "What is demand forecasting?"
    [⟨"doc-a", "src-a", 9/10⟩, ⟨"doc-b", "src-b", 17/20⟩]
    rfl (by norm_num [highConfidenceDocs, List.filter])
  exact h.1

/-- C2: the retry counter is monotone per step and bounded by the
configured maximum, no step ever changes the preserved original question,
and a request that never finds relevant documents performs exactly
maxRetries rephrase cycles while running, then terminates in the fallback
phase with the retry counter equal to maxRetries and the original question
unchanged. -/
theorem retry_bound_and_fallback (maxRetries : Nat)
    (retrieveFn : String → List ScoredDoc) (paraphraseFn : String → String)
    (s : GraphState) (q : String) :
    (s.retry_count ≤ (stepRequest maxRetries retrieveFn paraphraseFn s).retry_count) ∧
    (s.retry_count ≤ maxRetries →
      (stepRequest maxRetries retrieveFn paraphraseFn s).retry_count ≤ maxRetries) ∧
    ((stepRequest maxRetries retrieveFn paraphraseFn s).original_question =
      s.original_question) ∧
    (∀ k ≤ maxRetries,
      (stepRequest maxRetries (fun _ => []) paraphraseFn)^[k] (initState q) =
        ⟨paraphraseFn^[k] q, q, k, [], Phase.running⟩) ∧
    ((stepRequest maxRetries (fun _ => []) paraphraseFn)^[maxRetries + 1]
        (initState q) =
      ⟨paraphraseFn^[maxRetries] q, q, maxRetries, [], Phase.fallback⟩) :=
  ⟨stepRequest_retry_mono maxRetries retrieveFn paraphraseFn s,
   stepRequest_retry_bounded maxRetries retrieveFn paraphraseFn s,
   stepRequest_original maxRetries retrieveFn paraphraseFn s,
   fun k hk => stepRequest_no_docs_iterate maxRetries paraphraseFn q k hk,
   stepRequest_exhausted maxRetries paraphraseFn q⟩

/-- C2 witness: with maximum 2 retries and retrieval that never finds
documents, three steps from the initial state end in the fallback phase
with retry counter 2 and the original question intact. -/
theorem retry_bound_and_fallback_check :
    (stepRequest 2 (fun _ => []) (fun t => t ++ "?"))^[2 + 1] (initState "q0") =
      ⟨"q0??", "q0", 2, [], Phase.fallback⟩ := by
  have h :=
    (retry_bound_and_fallback 2 (fun _ => []) (fun t => t ++ "?")
      (initState "q0") "q0").2.2.2.2
  rw [h]
  rfl

/-- C3: when the underlying grading call for a batch fails, the batch
grader returns one result per input document of that batch, every one
flagged relevant with the default confidence, and no document is dropped;
composed over all batches of a failing grader, the whole batched grading
pass still returns every input document. -/
theorem lenient_batch_fallback
    (grader : String → List ScoredDoc → Option (List GradeScore))
    (question : String) (batch : List ScoredDoc) (bs : Nat)
    (docs : List ScoredDoc) :
    (grader question batch = none →
      ((gradeBatch grader question batch).map (fun g => g.doc) = batch ∧
       ∀ g ∈ gradeBatch grader question batch,
         g.is_relevant = true ∧ g.confidence = DEFAULT_CONFIDENCE)) ∧
    (((chunkList bs docs).map (gradeBatch (fun _ _ => none) question)).flatten.map
        (fun g => g.doc) = docs) := by
  constructor
  · intro hfail
    rw [gradeBatch_fail grader question batch hfail]
    constructor
    · simp [List.map_map, Function.comp_def]
    · intro g hg
      rcases List.mem_map.mp hg with ⟨d, _, rfl⟩
      exact ⟨rfl, rfl⟩
  · have hb : gradeBatch (fun _ _ => none) question =
        fun b => b.map (fun d => (⟨d, true, DEFAULT_CONFIDENCE⟩ : GradedDoc)) :=
      funext fun b => gradeBatch_fail _ _ _ rfl
    rw [hb, ← List.map_flatten]
    simp only [List.map_map, Function.comp_def]
    have hid : (fun d => (⟨d, true, DEFAULT_CONFIDENCE⟩ : GradedDoc).doc) =
        fun d : ScoredDoc => d := rfl
    rw [hid]
    rw [show List.map (fun d : ScoredDoc => d) (chunkList bs docs).flatten =
        (chunkList bs docs).flatten from List.map_id' _, chunkList_flatten]

/-- C3 witness: a one-document batch whose grading call fails comes back
with the document kept, flagged relevant at the default confidence. -/
theorem lenient_batch_fallback_check :
    (gradeBatch (fun _ _ => none) "q" [⟨"b1", "s1", 1/2⟩]).map (fun g => g.doc) =
      [⟨"b1", "s1", 1/2⟩] := by
  exact ((lenient_batch_fallback (fun _ _ => none) "q" [⟨"b1", "s1", 1/2⟩] 5 []).1
    rfl).1

/-- Concrete cache used by witnesses: remote enabled but unreachable. -/
def unreachableCache : QueryCache Nat :=
  { digest := id
    redis_enabled := true
    redis_reachable := false
    redis_store := []
    memory_cache := []
    max_memory_entries := 2
    ttl := 10
    hits := 0
    misses := 0
    errors := 0 }

/-- Concrete local-only cache used by witnesses. -/
def localCache : QueryCache Nat :=
  { digest := id
    redis_enabled := false
    redis_reachable := false
    redis_store := []
    memory_cache := []
    max_memory_entries := 4
    ttl := 10
    hits := 0
    misses := 0
    errors := 0 }

/-- C4: while the remote backend is enabled but unreachable, get and set
keep working as total operations on the local backend alone: get returns
exactly the local lookup result, a set followed by a get within the TTL
still returns the value through the local backend, each remote failure is
counted only on the error counter, the statistics report the remote as
unavailable, and no operation of any following sequence changes the
enabled or reachable flags. -/
theorem remote_unreachable_degrades (c : QueryCache V) (q ctx : String) (v : V)
    (now now' : Nat) (ops : List (CacheOp V))
    (hen : c.redis_enabled = true) (hre : c.redis_reachable = false)
    (hmax : 1 ≤ c.max_memory_entries) (hlt : now' < now + c.ttl) :
    ((c.get q ctx now').1 = lookupLive c.memory_cache (c.cacheKey q ctx) now') ∧
    (((c.set q ctx v now).get q ctx now').1 = some v) ∧
    ((c.get q ctx now').2.errors = c.errors + 1) ∧
    ((c.set q ctx v now).errors = c.errors + 1) ∧
    ((QueryCache.get_stats c).remote_available = false) ∧
    ((runOps c ops).redis_enabled = true ∧
      (runOps c ops).redis_reachable = false) := by
  refine ⟨?_, ?_, ?_, ?_, ?_, ?_, ?_⟩
  · unfold QueryCache.get QueryCache.localGet
    cases hM : lookupLive c.memory_cache (c.cacheKey q ctx) now' <;>
      simp [hen, hre, hM]
  · rw [set_then_get_fst c q ctx q ctx v now now' rfl hmax, if_pos hlt]
  · rw [get_errors]
    simp [hen, hre]
  · rw [set_errors]
    simp [hen, hre]
  · simp [QueryCache.get_stats, hre]
  · rw [runOps_redis_enabled]
    exact hen
  · rw [runOps_redis_reachable]
    exact hre

/-- C4 witness: on a concrete cache with unreachable remote, a set followed
by a get within the TTL returns the stored value and the statistics report
the remote as unavailable. -/
theorem remote_unreachable_degrades_check :
    ((unreachableCache.set "q" "c" 42 0).get "q" "c" 5).1 = some 42 ∧
    (QueryCache.get_stats unreachableCache).remote_available = false := by
  have h := remote_unreachable_degrades unreachableCache "q" "c" 42 0 5 []
    rfl rfl (by decide) (by decide)
  exact ⟨h.2.1, h.2.2.2.2.1⟩

/-- C5: the local backend never exceeds its capacity after any sequence of
operations, and inserting capacity plus one pairwise distinct keys into an
empty local backend leaves exactly the capacity many entries, namely all
but the oldest in most-recent-first order, so the evicted entry is the
oldest inserted one. -/
theorem local_capacity_bound_and_eviction (c : QueryCache V)
    (ops : List (CacheOp V)) (maxEntries : Nat)
    (kvs : List (String × CacheEntry V)) (kv0 : String × CacheEntry V)
    (hinv : c.memory_cache.length ≤ c.max_memory_entries)
    (hnd : (kvs.map Prod.fst).Nodup) (hlen : kvs.length = maxEntries + 1) :
    ((runOps c ops).memory_cache.length ≤ (runOps c ops).max_memory_entries) ∧
    ((insertAll maxEntries kvs).map Prod.fst =
      ((kvs.map Prod.fst).drop 1).reverse) ∧
    ((insertAll maxEntries kvs).length = maxEntries) ∧
    (kvs.head? = some kv0 → kv0.1 ∉ (insertAll maxEntries kvs).map Prod.fst) := by
  have hev := insertAll_evicts_oldest maxEntries kvs hnd hlen
  refine ⟨runOps_memory_bound c ops hinv, hev.1, hev.2, ?_⟩
  intro hhead
  rcases kvs with _ | ⟨k1, rest⟩
  · simp at hhead
  · have hk : kv0 = k1 := by
      simp only [List.head?_cons, Option.some.injEq] at hhead
      exact hhead.symm
    subst hk
    rw [hev.1]
    simp only [List.map_cons, List.drop_succ_cons, List.drop_zero,
      List.mem_reverse]
    simp only [List.map_cons, List.nodup_cons] at hnd
    exact hnd.1

/-- C5 witness: inserting three distinct keys into a capacity-two local
backend leaves the two newest keys, oldest first evicted. -/
theorem local_capacity_bound_and_eviction_check :
    (insertAll 2 [("k1", (⟨1, 10⟩ : CacheEntry Nat)), ("k2", ⟨2, 10⟩),
      ("k3", ⟨3, 10⟩)]).map Prod.fst = ["k3", "k2"] := by
  have h := local_capacity_bound_and_eviction localCache [] 2
    [("k1", (⟨1, 10⟩ : CacheEntry Nat)), ("k2", ⟨2, 10⟩), ("k3", ⟨3, 10⟩)]
    ("k1", ⟨1, 10⟩) (by decide) (by decide) rfl
  rw [h.2.1]
  rfl

/-- C6: a set followed by a get of the same question and context returns
the stored payload unchanged while the entry is within its TTL, and
returns absent once the TTL has passed. -/
theorem cache_round_trip (c : QueryCache V) (q ctx : String) (v : V)
    (now now' : Nat) (hmax : 1 ≤ c.max_memory_entries) :
    (now' < now + c.ttl → ((c.set q ctx v now).get q ctx now').1 = some v) ∧
    (now + c.ttl ≤ now' → ((c.set q ctx v now).get q ctx now').1 = none) := by
  rw [set_then_get_fst c q ctx q ctx v now now' rfl hmax]
  constructor
  · intro h
    rw [if_pos h]
  · intro h
    rw [if_neg (by omega)]

/-- C6 witness: on a concrete local cache with TTL 10, a value stored at
time 0 is returned unchanged at time 5 and absent at time 10. -/
theorem cache_round_trip_check :
    ((localCache.set "what" "ctx" 42 0).get "what" "ctx" 5).1 = some 42 ∧
    ((localCache.set "what" "ctx" 42 0).get "what" "ctx" 10).1 = none :=
  ⟨(cache_round_trip localCache "what" "ctx" 42 0 5 (by decide)).1 (by decide),
   (cache_round_trip localCache "what" "ctx" 42 0 10 (by decide)).2 (by decide)⟩

/-- C7: starting from zeroed counters, after any sequence of operations the
reported hits and misses equal the observed counts of present and absent
get results of the run, and the reported hit rate is hits over hits plus
misses, zero when there was no get at all. -/
theorem hit_rate_correct (c₀ : QueryCache V) (ops : List (CacheOp V))
    (h0 : c₀.hits = 0) (m0 : c₀.misses = 0) :
    ((runOps c₀ ops).get_stats).hits = hitsInRun c₀ ops ∧
    ((runOps c₀ ops).get_stats).misses = missesInRun c₀ ops ∧
    ((runOps c₀ ops).get_stats).hit_rate =
      (if hitsInRun c₀ ops + missesInRun c₀ ops = 0 then (0 : ℚ)
       else (hitsInRun c₀ ops : ℚ) /
         ((hitsInRun c₀ ops : ℚ) + (missesInRun c₀ ops : ℚ))) := by
  have hh : (runOps c₀ ops).hits = hitsInRun c₀ ops := by
    rw [runOps_hits, h0]
    simp
  have hm : (runOps c₀ ops).misses = missesInRun c₀ ops := by
    rw [runOps_misses, m0]
    simp
  refine ⟨?_, ?_, ?_⟩ <;> simp [QueryCache.get_stats, hh, hm]

/-- Concrete operation sequence for the C7 witness: one set, one hit, one
miss. -/
def sampleOps : List (CacheOp Nat) :=
  [.opSet "q" "" 42 0, .opGet "q" "" 1, .opGet "x" "" 1]

/-- C7 witness: after one hit and one miss the reported hit rate is one
half. -/
theorem hit_rate_correct_check :
    ((runOps localCache sampleOps).get_stats).hit_rate = 1/2 := by
  have h := (hit_rate_correct localCache sampleOps rfl rfl).2.2
  rw [h, show hitsInRun localCache sampleOps = 1 from rfl,
    show missesInRun localCache sampleOps = 1 from rfl]
  norm_num

/-- C9: the cache key is a digest of question, a vertical-bar delimiter,
context and a version suffix, so the distinct pairs of question a-bar-b
with context c and question a with context b-bar-c flatten to the same
string, derive the same key for every digest function, and a get on one
pair observes the value stored by a set on the other. -/
theorem cache_key_delimiter_collision :
    ((("a|b" : String), ("c" : String)) ≠ (("a" : String), ("b|c" : String))) ∧
    flattenKeyInput "a|b" "c" = flattenKeyInput "a" "b|c" ∧
    (∀ (V : Type) (c : QueryCache V), c.cacheKey "a|b" "c" = c.cacheKey "a" "b|c") ∧
    (∀ (V : Type) (c : QueryCache V) (v : V) (now now' : Nat),
      1 ≤ c.max_memory_entries → now' < now + c.ttl →
      ((c.set "a" "b|c" v now).get "a|b" "c" now').1 = some v) := by
  refine ⟨by decide, rfl, fun V c => rfl, ?_⟩
  intro V c v now now' hmax hlt
  rw [set_then_get_fst c "a" "b|c" "a|b" "c" v now now' rfl hmax, if_pos hlt]

/-- C9 witness: on a concrete cache, storing under the pair a with context
b-bar-c is observed by a get on the distinct pair a-bar-b with context c. -/
theorem cache_key_delimiter_collision_check :
    ((localCache.set "a" "b|c" 7 0).get "a|b" "c" 3).1 = some 7 :=
  cache_key_delimiter_collision.2.2.2 Nat localCache 7 0 3 (by decide) (by decide)

/-- Scenario document set of the spec: three scored documents with
confidences 0.9, 0.85 and 0.3. -/
def scenarioDocs : List ScoredDoc :=
  [⟨"Demand forecasting introduction", "w1", 9/10⟩,
   ⟨"Forecasting methods overview", "w2", 17/20⟩,
   ⟨"Unrelated terminology", "w3", 3/10⟩]

/-- C8: the aggregate confidence score reported by the grade_documents
node is the arithmetic mean of the surviving confidences, zero when no
document survives; on the spec scenario with threshold 0.8 and minimum 2
the two surviving documents at 0.9 and 0.85 yield exactly 0.875. -/
theorem confidence_score_is_mean (cfg : GradingConfig)
    (grader grader₂ : String → List ScoredDoc → Option (List GradeScore))
    (question q₂ : String) (docs : List ScoredDoc) :
    ((gradeDocuments cfg grader question docs).confidence_score =
      meanConfidence
        ((gradeDocuments cfg grader question docs).documents.map
          (fun g => g.confidence))) ∧
    ((gradeDocuments cfg grader question docs).documents = [] →
      (gradeDocuments cfg grader question docs).confidence_score = 0) ∧
    ((gradeDocuments ⟨5, 2, 4/5, true⟩ grader₂ q₂ scenarioDocs).confidence_score
      = 7/8) := by
  have h1 : (gradeDocuments cfg grader question docs).confidence_score =
      meanConfidence
        ((gradeDocuments cfg grader question docs).documents.map
          (fun g => g.confidence)) := by
    by_cases htrig : earlyStopTriggered cfg docs = true
    · simp [gradeDocuments, htrig]
    · rw [Bool.not_eq_true] at htrig
      simp [gradeDocuments, htrig]
  refine ⟨h1, ?_, ?_⟩
  · intro hemp
    rw [h1, hemp]
    simp [meanConfidence]
  · have hfil : highConfidenceDocs ⟨5, 2, 4/5, true⟩ scenarioDocs =
        [⟨"Demand forecasting introduction", "w1", 9/10⟩,
         ⟨"Forecasting methods overview", "w2", 17/20⟩] := by
      norm_num [highConfidenceDocs, scenarioDocs, List.filter]
    have htrig : earlyStopTriggered ⟨5, 2, 4/5, true⟩ scenarioDocs = true := by
      rw [earlyStopTriggered, hfil]
      norm_num
    rw [gradeDocuments, if_pos htrig]
    rw [hfil]
    norm_num [meanConfidence]

/-- C8 witness: on the spec scenario the reported aggregate confidence is
0.875. -/
theorem confidence_score_is_mean_check :
    (gradeDocuments ⟨5, 2, 4/5, true⟩ (fun _ _ => some []) "scenario"
      scenarioDocs).confidence_score = 7/8 :=
  (confidence_score_is_mean ⟨5, 2, 4/5, true⟩ (fun _ _ => some [])
    (fun _ _ => some []) "scenario" "scenario" scenarioDocs).2.2

/-- C10: the context the generate node passes to the LLM is exactly the
first ten documents of the filtered set, hence at most ten documents, and
appending documents beyond the tenth position leaves the generated answer
unchanged for every LLM. -/
theorem generation_context_top_ten (llm : String → List ScoredDoc → String)
    (question : String) (docs extra : List ScoredDoc) :
    (generationContext docs).length ≤ GENERATION_MAX_DOCS ∧
    generationContext docs = docs.take 10 ∧
    (GENERATION_MAX_DOCS ≤ docs.length →
      generateAnswer llm question (docs ++ extra) =
        generateAnswer llm question docs) := by
  refine ⟨List.length_take_le _ _, rfl, ?_⟩
  intro h
  unfold generateAnswer generationContext
  rw [List.take_append_of_le_length h]

/-- Ten scored documents used by the C10 witness. -/
def tenDocs : List ScoredDoc :=
  (List.range 10).map (fun i => ⟨toString i, "s", 0⟩)

/-- C10 witness: with ten documents present, appending an eleventh does not
change the generated answer. -/
theorem generation_context_top_ten_check :
    generateAnswer (fun _ ds => toString ds.length) "q"
        (tenDocs ++ [⟨"extra", "s", 0⟩]) =
      generateAnswer (fun _ ds => toString ds.length) "q" tenDocs :=
  (generation_context_top_ten (fun _ ds => toString ds.length) "q" tenDocs
    [⟨"extra", "s", 0⟩]).2.2 (by simp [tenDocs, GENERATION_MAX_DOCS])
